import Mathlib

/-!
Verification development for the VibeCLI action-protocol engine
(moi-script/cliKit, files src/mini/term3.py and src/file_reader.py).

The Python source is shallowly embedded: strings are Lean strings
(internally lists of characters), filesystem paths are lists of path
components, the filesystem is a map from resolved paths to file contents
plus a directory predicate, and every handler of the action dispatcher
becomes a pure function from its inputs (filesystem, session state,
operator responses, timestamp) to a result and a new filesystem.
Operating-system path resolution (the treatment of the dot-dot segments
at file access time) is modelled by resolving component lists.
The host-platform flag IS_WINDOWS becomes an explicit boolean parameter.
-/

namespace VibeCLI

/-! ## Python string primitives -/

/-- Python's regex class of whitespace characters (the ASCII part), which is
also the set of characters stripped by the argument-free str.strip(). -/
def isPyWs (c : Char) : Bool :=
  c = ' ' || c = '\t' || c = '\n' || c = '\r' || c = '\x0b' || c = '\x0c'

/-- str.strip() on a character list: drop whitespace from both ends. -/
def pyStripL (l : List Char) : List Char :=
  ((l.dropWhile isPyWs).reverse.dropWhile isPyWs).reverse

/-- Python str.strip() with no arguments. -/
def pyStrip (s : String) : String := String.mk (pyStripL s.toList)

/-- Python str.lower(); all strings handled by the agent are ASCII, where
Char.toLower agrees with Python. -/
def pyLower (s : String) : String := String.mk (s.toList.map Char.toLower)

/-- Helper for str.split(): accumulate the current word (reversed). -/
def pySplitAux : List Char → List Char → List (List Char)
  | [], acc => if acc.isEmpty then [] else [acc.reverse]
  | c :: t, acc =>
      if isPyWs c then
        (if acc.isEmpty then pySplitAux t [] else acc.reverse :: pySplitAux t [])
      else pySplitAux t (c :: acc)

/-- Python str.split() with no arguments: split on whitespace runs,
producing no empty words. -/
def pySplit (s : String) : List String := (pySplitAux s.toList []).map String.mk

/-- Does pat occur as a contiguous sublist of the second argument?
(Python's substring test s2 in s1.) -/
def subAt : List Char → List Char → Bool
  | pat, [] => pat.isEmpty
  | pat, c :: t => pat.isPrefixOf (c :: t) || subAt pat t

/-- Python's substring containment test: pat in s. -/
def containsSub (s pat : String) : Bool := subAt pat.toList s.toList

/-- Python str.startswith, over the character lists. -/
def strStartsWith (s pre : String) : Bool := pre.toList.isPrefixOf s.toList

/-- Python str.endswith, over the character lists. -/
def strEndsWith (s suf : String) : Bool := suf.toList.reverse.isPrefixOf s.toList.reverse

/-- Python str.replace for a nonempty pattern, fuelled by the input length
(each replacement consumes at least one character). -/
def replAllL (pat rep : List Char) : Nat → List Char → List Char
  | 0, l => l
  | _ + 1, [] => []
  | fuel + 1, c :: t =>
      if pat.isPrefixOf (c :: t) && !pat.isEmpty then
        rep ++ replAllL pat rep fuel ((c :: t).drop pat.length)
      else c :: replAllL pat rep fuel t

/-- Python str.replace(pat, rep): replace all non-overlapping occurrences,
left to right. -/
def replAll (s pat rep : String) : String :=
  String.mk (replAllL pat.toList rep.toList s.toList.length s.toList)

/-- Python str.replace for a single-character pattern, which is a plain
character map. -/
def replChar (a b : Char) (s : String) : String :=
  String.mk (s.toList.map (fun c => if c = a then b else c))

/-- The operator confirmations accepted by every yes/no prompt
(source: response not in ['y', 'yes'] after .lower().strip()). -/
def yesList : List String := ["y", "yes"]

/-- input(...).lower().strip() compared against the yes list. -/
def confirmYes (resp : String) : Bool := yesList.contains (pyStrip (pyLower resp))

/-! ## Paths

A path is the list of its components below the filesystem root.  pathlib
drops empty components and single dots when a path is constructed, and
keeps dot-dot components until resolution; Path.resolve() eliminates them
(popping at the root leaves the root).  str() of an absolute posix path is
a slash followed by the slash-joined components. -/

/-- Split a character list on the slash character. -/
def splitSlashL : List Char → List (List Char)
  | [] => [[]]
  | c :: t =>
      if c = '/' then [] :: splitSlashL t
      else
        match splitSlashL t with
        | [] => [[c]]
        | h :: r => (c :: h) :: r

/-- The components pathlib keeps from a path string: split on slashes,
dropping empty pieces and single dots. -/
def pathParts (s : String) : List String :=
  ((splitSlashL s.toList).map String.mk).filter (fun x => !(x = "" || x = "."))

/-- An absolute path as its list of components. -/
abbrev PyPath := List String

/-- Path joining (the slash operator of pathlib): an absolute right operand
replaces the base entirely. -/
def joinPath (base : PyPath) (rel : String) : PyPath :=
  if strStartsWith rel "/" then pathParts rel else base ++ pathParts rel

/-- Path.resolve(): eliminate dot-dot components; a pop at the root stays
at the root.  This also models what the operating system does to dot-dot
segments when a file is accessed. -/
def resolveComps (p : PyPath) : PyPath :=
  p.foldl (fun acc x => if x = ".." then acc.dropLast else acc ++ [x]) []

/-- str() of an absolute path. -/
def renderPath (p : PyPath) : String :=
  String.mk ('/' :: ((p.map String.toList).intersperse ['/']).flatten)

/-! ## Filesystem model

Files are keyed by resolved absolute paths; a directory predicate models
is_dir().  Every handler resolves a path before touching the filesystem,
reflecting how the operating system treats the unresolved paths the
source hands to open/copy/unlink. -/

structure FS where
  files : PyPath → Option String
  dirs : PyPath → Bool

/-- Path.exists(): a directory or a file is present. -/
def FS.existsAt (fs : FS) (p : PyPath) : Bool := fs.dirs p || (fs.files p).isSome

/-- Path.write_text: create or overwrite one file. -/
def FS.writeFile (fs : FS) (p : PyPath) (c : String) : FS :=
  { files := fun q => if q = p then some c else fs.files q, dirs := fs.dirs }

/-- shutil.copy2: the destination receives the source's content. -/
def FS.copyFile (fs : FS) (src dst : PyPath) : FS :=
  { files := fun q => if q = dst then fs.files src else fs.files q, dirs := fs.dirs }

/-- Path.unlink: remove one file. -/
def FS.removeFile (fs : FS) (p : PyPath) : FS :=
  { files := fun q => if q = p then none else fs.files q, dirs := fs.dirs }

/-- shutil.rmtree: remove a directory and everything below it. -/
def FS.rmtree (fs : FS) (p : PyPath) : FS :=
  { files := fun q => if p.isPrefixOf q then none else fs.files q,
    dirs := fun q => if p.isPrefixOf q then false else fs.dirs q }

/-- path.parent.mkdir(parents=True, exist_ok=True): every proper prefix of
the path becomes a directory. -/
def FS.mkdirParents (fs : FS) (p : PyPath) : FS :=
  { files := fs.files,
    dirs := fun q => fs.dirs q || (q.isPrefixOf p && !(q = p)) }

/-! ## Backups (term3.py handle_write / handle_delete backup step) -/

/-- safe_name = rel_path.replace("/", "_").replace("\\", "_"); two
single-character replacements whose results never reintroduce a match,
hence one character map. -/
def safeName (rel : String) : String :=
  String.mk (rel.toList.map (fun c => if c = '/' || c = '\\' then '_' else c))

/-- The backup file name: safe_name, an underscore, the second-resolution
timestamp, and the .bak suffix. -/
def bakFileName (rel ts : String) : String := safeName rel ++ "_" ++ ts ++ ".bak"

/-- The backup target: the sidecar directory .vibe/backups under the
project root, plus the backup file name (the timestamp produced by
strftime contains no slash, so the name is a single component). -/
def backupKey (root : PyPath) (rel ts : String) : PyPath :=
  root ++ [".vibe", "backups", bakFileName rel ts]

/-! ## Handlers: READ / WRITE / DELETE (term3.py) -/

/-- VibeUtils.normalize_path on a non-Windows host: backslashes become
slashes. -/
def normSlash (s : String) : String := replChar '\\' '/' s

inductive ReadRes
  | denied
  | missing
  | dirScrape (content : String)
  | fileContent (content : String)
deriving DecidableEq

/-- VibeAgent.handle_read: resolve the joined path, apply the string-prefix
security check against the root, then return a directory scrape or the
file content.  scrape abstracts scrape_contents of file_reader.py. -/
def handle_read (scrape : PyPath → String) (fs : FS) (root : PyPath) (relRaw : String) : ReadRes :=
  let rel := normSlash relRaw
  let p := resolveComps (joinPath root rel)
  if !strStartsWith (renderPath p) (renderPath root) then .denied
  else if !fs.existsAt p then .missing
  else if fs.dirs p then .dirScrape (scrape p)
  else .fileContent ((fs.files p).getD "")

inductive WriteRes
  | denied
  | wrote (backedUp : Bool)
deriving DecidableEq

/-- VibeAgent.handle_write: normalize the path, join it under the root
(no containment check and no resolution in the source), ask for
confirmation, back up an existing target into the sidecar directory,
create parent directories and write the content verbatim. -/
def handle_write (fs : FS) (root : PyPath) (relRaw content resp ts : String) : WriteRes × FS :=
  let rel := normSlash relRaw
  let pr := resolveComps (joinPath root rel)
  let ex := fs.existsAt pr
  if !confirmYes resp then (.denied, fs)
  else
    let fs1 := if ex then fs.copyFile pr (resolveComps (backupKey root rel ts)) else fs
    (.wrote ex, (fs1.mkdirParents pr).writeFile pr content)

inductive DelRes
  | missing
  | denied
  | deletedFile
  | deletedDir
deriving DecidableEq

/-- VibeAgent.handle_delete: normalize, join under the root (again no
containment check), confirm, back up a file target, then unlink the file
or remove the whole directory tree. -/
def handle_delete (fs : FS) (root : PyPath) (relRaw resp ts : String) : DelRes × FS :=
  let rel := normSlash relRaw
  let p := resolveComps (joinPath root rel)
  if !fs.existsAt p then (.missing, fs)
  else if !confirmYes resp then (.denied, fs)
  else if fs.dirs p then (.deletedDir, fs.rmtree p)
  else (.deletedFile, (fs.copyFile p (resolveComps (backupKey root rel ts))).removeFile p)

/-! ## Context refresh and CD (term3.py refresh_context / handle_cd) -/

structure Msg where
  role : String
  content : String
deriving DecidableEq

/-- The content marker by which the distinguished context entry is found. -/
def ctxMarker : String := "HERE IS THE CURRENT REPO CONTEXT"

/-- The combined context string built by refresh_context. -/
def mkCombinedContext (tree scrape : String) : String :=
  "DIRECTORY STRUCTURE:\n" ++ tree ++ "\n\nFILE CONTENTS:\n" ++ scrape

/-- The full content of the refreshed context message. -/
def mkCtxEntry (ts combined : String) : String :=
  "HERE IS THE CURRENT REPO CONTEXT (Updated " ++ ts ++ "):\n\n" ++ combined

/-- VibeAgent.refresh_context: rebuild tree and scrape from the ROOT
directory, then replace the first system message containing the context
marker, or insert the entry at index 1.  scrape and tree abstract
scrape_contents and the tree generator; ts is the wall-clock timestamp. -/
def refresh_context (scrape tree : PyPath → String) (root : PyPath) (ts : String)
    (msgs : List Msg) : List Msg :=
  let combined := mkCombinedContext (tree root) (scrape root)
  let newMsg : Msg := ⟨"system", mkCtxEntry ts combined⟩
  match msgs.findIdx? (fun m => m.role == "system" && containsSub m.content ctxMarker) with
  | some i => msgs.set i newMsg
  | none => msgs.insertIdx 1 newMsg

inductive CdRes
  | notFound
  | notDir
  | ok
deriving DecidableEq

/-- VibeAgent.handle_cd: resolve the target against the current working
directory, validate existence and directory-ness, update the tracked
working directory and trigger a context refresh; on failure nothing
changes.  Returns (result, new cwd, new message history). -/
def handle_cd (scrape tree : PyPath → String) (w : Bool) (fs : FS) (root cwd : PyPath)
    (targetRaw ts : String) (msgs : List Msg) : CdRes × PyPath × List Msg :=
  let target := if w then replChar '/' '\\' targetRaw else targetRaw
  let np := resolveComps (joinPath cwd target)
  if !fs.existsAt np then (.notFound, cwd, msgs)
  else if !fs.dirs np then (.notDir, cwd, msgs)
  else (.ok, np, refresh_context scrape tree root ts msgs)

/-! ## Safety gate (VibeUtils.is_dangerous) -/

/-- The fixed denylist of leading tokens (source constant
DANGEROUS_COMMANDS, a set; membership is what matters). -/
def DANGEROUS_COMMANDS : List String :=
  ["rm", "del", "format", "mkfs", "dd", "shutdown", "reboot", "diskpart"]

/-- VibeUtils.is_dangerous: leading lowercased token in the denylist, or
the substrings rm plus -r (or slash-space) anywhere in the raw command,
or on Windows a del/rmdir/rd substring with /s and a c:\ or d:\ drive
reference. -/
def is_dangerous (w : Bool) (command : String) : Bool :=
  match pySplit (pyLower command) with
  | [] => false
  | p0 :: _ =>
    if DANGEROUS_COMMANDS.contains p0 then true
    else if containsSub command "rm" && (containsSub command "-r" || containsSub command "/ ") then
      true
    else if w && (containsSub command "del" || containsSub command "rmdir" || containsSub command "rd")
            && containsSub command "/s"
            && (containsSub (pyLower command) "c:\\" || containsSub (pyLower command) "d:\\") then
      true
    else false

/-! ## Platform command translator (VibeUtils.convert_unix_to_windows) -/

/-- WINDOWS_CMD_MAP sorted by key length, longest first; Python's sort is
stable, so equal lengths keep the dict's insertion order. -/
def winCmdTable : List (String × String) :=
  [("mkdir -p", "mkdir"),
   ("ls -la", "dir /a"), ("rm -rf", "rmdir /s /q"),
   ("ls -l", "dir"), ("ls -R", "tree /f /a"), ("touch", "type nul >"),
   ("clear", "cls"), ("which", "where"),
   ("grep", "findstr"),
   ("pwd", "cd"), ("cat", "type"),
   ("ls", "dir /b"), ("cp", "copy"), ("mv", "move"), ("rm", "del")]

/-- The loop body of convert_unix_to_windows: first key that is a
whole-word prefix of the lowercased stripped command wins; the rewritten
command splices the original command's tail. -/
def findConv : List (String × String) → String → String → Option String
  | [], _, _ => none
  | (k, v) :: rest, cmdLower, original =>
      if strStartsWith cmdLower k &&
         (match cmdLower.toList.drop k.length with
          | [] => true
          | c :: _ => c = ' ') then
        let tail := pyStrip (String.mk (original.toList.drop k.length))
        some (if tail = "" then v else v ++ " " ++ tail)
      else findConv rest cmdLower original

/-- VibeUtils.convert_unix_to_windows: identity off Windows. -/
def convert_unix_to_windows (w : Bool) (command : String) : String :=
  if !w then command
  else
    match findConv winCmdTable (pyStrip (pyLower command)) command with
    | some c => c
    | none => command

/-- Step 3 of handle_run: on Windows, rewrite recursive rm commands into
del or rmdir forms based on the last whitespace token. -/
def winRmFix (w : Bool) (command : String) : String :=
  if w && strStartsWith (pyStrip command) "rm -" &&
     (containsSub command "-r" || containsSub command "-rf") then
    let targetPart := (pySplit command).getLastD ""
    if strEndsWith targetPart "*" || strEndsWith targetPart "/" || strEndsWith targetPart "\\" then
      let ct := replChar '/' '\\' targetPart
      "del /s /q " ++ (if !strEndsWith ct "*" then ct ++ "*" else ct)
    else "rmdir /s /q " ++ replChar '/' '\\' targetPart
  else command

/-! ## InteractiveCommandFixer.fix (the returned command; warnings only
feed prints) -/

def icFix (command : String) : String :=
  let cmdLower := pyLower command
  if containsSub cmdLower "create vite" || containsSub cmdLower "create-vite" then
    let c :=
      if !containsSub command "--yes" && !containsSub command "-y" then
        replAll (replAll command "npm create" "npm create --yes")
          "npx create-vite" "npx --yes create-vite"
      else command
    if !containsSub c "--template" then c ++ " --template react-ts" else c
  else if containsSub cmdLower "create-next-app" then
    if !containsSub command "--yes" && !containsSub command "-y" then command ++ " --yes"
    else command
  else if containsSub cmdLower "create astro" then
    if !containsSub command "--template" then command ++ " --template minimal --yes"
    else if !containsSub command "--yes" then command ++ " --yes"
    else command
  else if containsSub cmdLower "create-remix" then
    if !containsSub command "--template" then command ++ " --template remix" else command
  else if containsSub cmdLower "shadcn" then
    if !containsSub command "-y" && !containsSub command "--yes" then command ++ " -y"
    else command
  else if strEndsWith (pyStrip command) "init" then
    if !containsSub command "-y" && !containsSub command "--yes" then command ++ " -y"
    else command
  else command

/-- The substrings that mark a scaffolding command (term3 handle_run,
is_create_cmd). -/
def createCmdMarks : List String :=
  ["npm create", "npx create", "yarn create", "pnpm create",
   "npm init", "yarn init", "pnpm init"]

/-- The substrings that mark a long-running server command (term3
handle_run, server guard). -/
def serverPatterns : List String :=
  ["npm run dev", "npm start", "yarn dev", "yarn start",
   "pnpm dev", "pnpm start", "bun dev", "bun run dev",
   "python manage.py runserver", "uvicorn", "nodemon"]

/-- Steps 2 to 4 of handle_run: platform translation, Windows rm fix-up,
interactive fix-up of scaffolding commands.  This is the command the
safety gate classifies and the shell receives. -/
def runCommandAfterFixes (w : Bool) (command : String) : String :=
  let c2 := winRmFix w (convert_unix_to_windows w command)
  if createCmdMarks.any (fun m => containsSub (pyLower c2) m) then icFix c2 else c2

/-! ## handle_run (term3.py)

Operator responses are modelled as a stream: each input() call pops the
next entry.  The outcome records which return path of the source was
taken; the two subprocess call sites are the winLaunched branch (the
Windows new-window server launch, spawned without piped stdin) and the
executed branch (the standard execution, spawned with input="y\n"). -/

inductive RunOutcome
  | cdOk (newCwd : PyPath)
  | cdErr
  | winLaunched (fullCmd : String)
  | serverSkipped (cmd : String)
  | blockedDangerous
  | denied
  | executed (cmd : String)
deriving DecidableEq

/-- One input() call on the operator response stream. -/
def popInput (stdin : List String) : String × List String :=
  (stdin.head?.getD "", stdin.tail)

/-- The Windows new-window launch command string built by handle_run. -/
def mkStartCmd (cwd : PyPath) (c : String) : String :=
  "start \"" ++ c ++ "\" cmd /k \"cd /d " ++ renderPath cwd ++ " && " ++ c ++ "\""

/-- Step 6 and 7 of handle_run: the ordinary yes/no execution
confirmation (skipped for server commands) and the execution itself. -/
def runConfirmExec (c : String) (isServer : Bool) (stdin : List String) : RunOutcome :=
  if !isServer then
    let (e, _) := popInput stdin
    if confirmYes e then .executed c else .denied
  else .executed c

/-- Step 5 of handle_run: the safety gate.  A dangerous command demands
the exact stripped phrase, and only then falls through to the ordinary
confirmation. -/
def runGate (w : Bool) (c : String) (isServer : Bool) (stdin : List String) : RunOutcome :=
  if is_dangerous w c then
    let (d, s2) := popInput stdin
    if !(pyStrip d == "confirm") then .blockedDangerous else runConfirmExec c isServer s2
  else runConfirmExec c isServer stdin

/-- VibeAgent.handle_run of term3.py: cd interception, command fix-ups,
server guard, safety gate, confirmation, execution. -/
def handle_run (w : Bool) (fs : FS) (cwd : PyPath) (command : String)
    (stdin : List String) : RunOutcome :=
  let cs := pyStrip command
  if strStartsWith cs "cd " then
    let t0 := String.mk (cs.toList.drop 3)
    let target := if w then replChar '/' '\\' t0 else t0
    let np := resolveComps (joinPath cwd target)
    if fs.existsAt np && fs.dirs np then .cdOk np else .cdErr
  else
    let c := runCommandAfterFixes w command
    let isServer := serverPatterns.any (fun p => containsSub (pyLower c) p)
    if isServer then
      if w then
        let (r0, s0) := popInput stdin
        if ["", "y", "yes"].contains (pyStrip (pyLower r0)) then .winLaunched (mkStartCmd cwd c)
        else
          let (r1, s1) := popInput s0
          if !confirmYes r1 then .serverSkipped c else runGate w c isServer s1
      else
        let (r1, s1) := popInput stdin
        if !confirmYes r1 then .serverSkipped c else runGate w c isServer s1
    else runGate w c isServer stdin

/-- What handle_run hands to subprocess.run: the command string and the
piped stdin of the call site (input="y\n" at the standard execution,
nothing at the Windows new-window launch). -/
def spawnedOf : RunOutcome → Option (String × Option String)
  | .winLaunched f => some (f, none)
  | .executed c => some (c, some "y\n")
  | _ => none

/-! ## Command protocol parser (process_tool_calls patterns)

Each verb's pattern is applied to the whole response text by findall with
DOTALL.  The scanners below implement exactly the backtracking semantics
of each pattern: lazy groups take the shortest text whose continuation
matches, greedy whitespace quantifiers take the longest and retreat on
failure, and scanning restarts one character later on a failed attempt
and after the end of a match on a successful one.  Recursion over the
text is fuelled by its length (an attempt always consumes at least one
character). -/

def markerL : List Char := ['<', '<', '<']

def openerL : List Char := ['>', '>', '>']

/-- The lazy body group followed by the closing marker: the shortest
prefix before the first marker occurrence. -/
def matchBody : List Char → Option (List Char × List Char)
  | [] => none
  | c :: t =>
      if markerL.isPrefixOf (c :: t) then some ([], (c :: t).drop 3)
      else (matchBody t).map (fun p => (c :: p.1, p.2))

/-- Greedy whitespace, then a literal newline, then the body group and
marker; on failure of the longer whitespace choice the matcher retreats,
using the current newline as the literal one. -/
def matchWsNlBody : List Char → Option (List Char × List Char)
  | [] => none
  | c :: t =>
      if isPyWs c then
        match matchWsNlBody t with
        | some r => some r
        | none => if c = '\n' then matchBody t else none
      else none

/-- The lazy argument-line group of the WRITE pattern: the shortest
nonempty prefix whose continuation matches whitespace, newline, body,
marker.  Returns (argument, body, rest). -/
def matchArgBody : List Char → Option (List Char × List Char × List Char)
  | [] => none
  | c :: t =>
      match matchWsNlBody t with
      | some (b, r) => some ([c], b, r)
      | none => (matchArgBody t).map (fun q => (c :: q.1, q.2.1, q.2.2))

/-- Greedy whitespace before the argument group, retreating on failure. -/
def matchStarArgBody : List Char → Option (List Char × List Char × List Char)
  | [] => none
  | c :: t =>
      if isPyWs c then
        match matchStarArgBody t with
        | some r => some r
        | none => matchArgBody (c :: t)
      else matchArgBody (c :: t)

/-- One attempt of the WRITE pattern after its opening marker. -/
def matchWriteAt (s : List Char) : Option (List Char × List Char × List Char) :=
  let s1 := s.dropWhile isPyWs
  if (String.toList "WRITE").isPrefixOf s1 then
    match s1.drop 5 with
    | [] => none
    | c :: t => if isPyWs c then matchStarArgBody t else none
  else none

def findWriteAux : Nat → List Char → List (List Char × List Char)
  | 0, _ => []
  | _, [] => []
  | fuel + 1, c :: t =>
      if openerL.isPrefixOf (c :: t) then
        match matchWriteAt ((c :: t).drop 3) with
        | some (g, b, r) => (g, b) :: findWriteAux fuel r
        | none => findWriteAux fuel t
      else findWriteAux fuel t

/-- findall of the WRITE pattern: the list of (argument line, body)
captures. -/
def findWrite (s : String) : List (String × String) :=
  (findWriteAux (s.toList.length + 1) s.toList).map (fun p => (String.mk p.1, String.mk p.2))

/-- Greedy whitespace then the closing marker; deterministic because no
whitespace character can begin the marker. -/
def matchEndTail (s : List Char) : Option (List Char) :=
  let u := s.dropWhile isPyWs
  if markerL.isPrefixOf u then some (u.drop 3) else none

/-- The lazy argument group of a single-line pattern. -/
def matchArgEnd : List Char → Option (List Char × List Char)
  | [] => none
  | c :: t =>
      match matchEndTail t with
      | some r => some ([c], r)
      | none => (matchArgEnd t).map (fun q => (c :: q.1, q.2))

/-- Greedy whitespace before the single-line argument group. -/
def matchStarArgEnd : List Char → Option (List Char × List Char)
  | [] => none
  | c :: t =>
      if isPyWs c then
        match matchStarArgEnd t with
        | some r => some r
        | none => matchArgEnd (c :: t)
      else matchArgEnd (c :: t)

/-- One attempt of a one-argument pattern (READ, RUN, DELETE, CD,
SHADCN) after its opening marker. -/
def matchSingleAt (verb : List Char) (s : List Char) : Option (List Char × List Char) :=
  let s1 := s.dropWhile isPyWs
  if verb.isPrefixOf s1 then
    match s1.drop verb.length with
    | [] => none
    | c :: t => if isPyWs c then matchStarArgEnd t else none
  else none

def findSingleAux (verb : List Char) : Nat → List Char → List (List Char)
  | 0, _ => []
  | _, [] => []
  | fuel + 1, c :: t =>
      if openerL.isPrefixOf (c :: t) then
        match matchSingleAt verb ((c :: t).drop 3) with
        | some (g, r) => g :: findSingleAux verb fuel r
        | none => findSingleAux verb fuel t
      else findSingleAux verb fuel t

/-- findall of a one-argument pattern: the list of argument captures. -/
def findSingle (verb : String) (s : String) : List String :=
  (findSingleAux verb.toList (s.toList.length + 1) s.toList).map String.mk

/-- One attempt of a zero-argument pattern (TREE, LISTFILES, REFRESH). -/
def matchZeroAt (verb : List Char) (s : List Char) : Option (List Char) :=
  let s1 := s.dropWhile isPyWs
  if verb.isPrefixOf s1 then matchEndTail (s1.drop verb.length) else none

def findZeroAux (verb : List Char) : Nat → List Char → Nat
  | 0, _ => 0
  | _, [] => 0
  | fuel + 1, c :: t =>
      if openerL.isPrefixOf (c :: t) then
        match matchZeroAt verb ((c :: t).drop 3) with
        | some r => findZeroAux verb fuel r + 1
        | none => findZeroAux verb fuel t
      else findZeroAux verb fuel t

/-- findall of a zero-argument pattern: the number of matches. -/
def findZero (verb : String) (s : String) : Nat :=
  findZeroAux verb.toList (s.toList.length + 1) s.toList

/-- Python's regex word character (the ASCII part). -/
def isWordChar (c : Char) : Bool := c.isAlphanum || c = '_'

/-- One attempt of the INSTALL pattern: a greedy word group (forced
maximal, since word and whitespace characters are disjoint) and then a
one-argument tail. -/
def matchInstallAt (s : List Char) : Option (List Char × List Char × List Char) :=
  let s1 := s.dropWhile isPyWs
  if (String.toList "INSTALL").isPrefixOf s1 then
    match s1.drop 7 with
    | [] => none
    | c :: t =>
        if isPyWs c then
          let u := t.dropWhile isPyWs
          let g1 := u.takeWhile isWordChar
          if g1.isEmpty then none
          else
            match u.dropWhile isWordChar with
            | [] => none
            | d :: t2 =>
                if isPyWs d then (matchStarArgEnd t2).map (fun q => (g1, q.1, q.2)) else none
        else none
  else none

def findInstallAux : Nat → List Char → List (List Char × List Char)
  | 0, _ => []
  | _, [] => []
  | fuel + 1, c :: t =>
      if openerL.isPrefixOf (c :: t) then
        match matchInstallAt ((c :: t).drop 3) with
        | some (m, p, r) => (m, p) :: findInstallAux fuel r
        | none => findInstallAux fuel t
      else findInstallAux fuel t

/-- findall of the INSTALL pattern. -/
def findInstall (s : String) : List (String × String) :=
  (findInstallAux (s.toList.length + 1) s.toList).map (fun p => (String.mk p.1, String.mk p.2))

/-- The optional trailing-options group of the CREATE pattern followed by
the closing tail; the optional group is preferred present. -/
def matchOptEnd (s : List Char) : Option (Option (List Char) × List Char) :=
  let present :=
    match s with
    | [] => none
    | c :: t => if isPyWs c then matchStarArgEnd t else none
  match present with
  | some (g, r) => some (some g, r)
  | none => (matchEndTail s).map (fun r => (none, r))

/-- The greedy project-name group of the CREATE pattern, with
backtracking into shorter names when the tail fails. -/
def matchNameOpt : List Char → Option (List Char × Option (List Char) × List Char)
  | [] => none
  | c :: t =>
      if isPyWs c then none
      else
        match matchNameOpt t with
        | some (g, o, r) => some (c :: g, o, r)
        | none => (matchOptEnd t).map (fun q => ([c], q.1, q.2))

/-- One attempt of the CREATE pattern: framework (greedy non-whitespace,
forced maximal), project name, optional options. -/
def matchCreateAt (s : List Char) :
    Option (List Char × List Char × Option (List Char) × List Char) :=
  let s1 := s.dropWhile isPyWs
  if (String.toList "CREATE").isPrefixOf s1 then
    match s1.drop 6 with
    | [] => none
    | c :: t =>
        if isPyWs c then
          let u := t.dropWhile isPyWs
          if (u.takeWhile (fun d => !isPyWs d)).isEmpty then none
          else
            match u.dropWhile (fun d => !isPyWs d) with
            | [] => none
            | d :: t2 =>
                if isPyWs d then
                  (matchNameOpt (t2.dropWhile isPyWs)).map
                    (fun q => (u.takeWhile (fun e => !isPyWs e), q.1, q.2.1, q.2.2))
                else none
        else none
  else none

def findCreateAux : Nat → List Char → List (List Char × List Char × Option (List Char))
  | 0, _ => []
  | _, [] => []
  | fuel + 1, c :: t =>
      if openerL.isPrefixOf (c :: t) then
        match matchCreateAt ((c :: t).drop 3) with
        | some (f, n, o, r) => (f, n, o) :: findCreateAux fuel r
        | none => findCreateAux fuel t
      else findCreateAux fuel t

/-- findall of the CREATE pattern. -/
def findCreate (s : String) : List (String × String × Option String) :=
  (findCreateAux (s.toList.length + 1) s.toList).map
    (fun q => (String.mk q.1, String.mk q.2.1, q.2.2.map String.mk))

/-! ## process_tool_calls: the executed actions in order -/

inductive Action
  | read (p : String)
  | tree
  | listfiles
  | write (p c : String)
  | cd (p : String)
  | delete (p : String)
  | run (c : String)
  | install (m p : String)
  | create (f n o : String)
  | shadcn (c : String)
  | refreshCtx
deriving DecidableEq

/-- VibeAgent.process_tool_calls: the sequence of handler invocations, in
the source's loop order (READ, TREE, LISTFILES, WRITE, CD, DELETE, RUN,
INSTALL, CREATE, SHADCN, REFRESH), each argument stripped exactly as at
the call sites. -/
def processToolCalls (t : String) : List Action :=
  ((findSingle "READ" t).map (fun p => Action.read (pyStrip p)))
  ++ (List.replicate (findZero "TREE" t) Action.tree)
  ++ (List.replicate (findZero "LISTFILES" t) Action.listfiles)
  ++ ((findWrite t).map (fun q => Action.write (pyStrip q.1) (pyStrip q.2)))
  ++ ((findSingle "CD" t).map (fun p => Action.cd (pyStrip p)))
  ++ ((findSingle "DELETE" t).map (fun p => Action.delete (pyStrip p)))
  ++ ((findSingle "RUN" t).map (fun c => Action.run (pyStrip c)))
  ++ ((findInstall t).map (fun q => Action.install (pyStrip q.1) (pyStrip q.2)))
  ++ ((findCreate t).map
        (fun q => Action.create (pyStrip q.1) (pyStrip q.2.1) (pyStrip (q.2.2.getD ""))))
  ++ ((findSingle "SHADCN" t).map (fun c => Action.shadcn (pyStrip c)))
  ++ (List.replicate (findZero "REFRESH" t) Action.refreshCtx)

/-! ## Helper lemmas shared by the claim theorems -/

theorem handle_read_denied (scrape : PyPath → String) (fs : FS) (root : PyPath) (rel : String)
    (h : strStartsWith (renderPath (resolveComps (joinPath root (normSlash rel))))
        (renderPath root) = false) :
    handle_read scrape fs root rel = .denied := by
  unfold handle_read
  simp [h]

theorem handle_write_writes (fs : FS) (root : PyPath) (rel content resp ts : String)
    (h : confirmYes resp = true) :
    (handle_write fs root rel content resp ts).2.files
      (resolveComps (joinPath root (normSlash rel))) = some content := by
  unfold handle_write
  simp [h, FS.writeFile, FS.mkdirParents]

/-! ## Claim C1: containment of READ and WRITE -/

/-- A filesystem with a project root /h/proj and a sibling directory
/h/projx holding a file the agent should not see. -/
def fsC1 : FS :=
  { files := fun q => if q = ["h", "projx", "secret"] then some "top-secret"
             else if q = ["h", "proj", "a.txt"] then some "inside" else none,
    dirs := fun q => q = ["h"] || q = ["h", "proj"] || q = ["h", "projx"] }

/-- C1 counterexample: the argument ../projx/secret resolves outside the
project root /h/proj, yet handle_read serves the file content (the
string-prefix check passes because /h/projx/secret starts with /h/proj),
and the argument ../evil.txt makes handle_write create a file outside the
root (it applies no containment check at all), contradicting the claim
that READ and WRITE fail and mutate nothing for such paths. -/
theorem c1_counterexample :
    (¬ (["h", "proj"] : PyPath).isPrefixOf
        (resolveComps (joinPath ["h", "proj"] "../projx/secret")) = true)
    ∧ handle_read (fun _ => "") fsC1 ["h", "proj"] "../projx/secret"
        = .fileContent "top-secret"
    ∧ (¬ (["h", "proj"] : PyPath).isPrefixOf
        (resolveComps (joinPath ["h", "proj"] "../evil.txt")) = true)
    ∧ (handle_write fsC1 ["h", "proj"] "../evil.txt" "pwned" "y" "TS").1
        = .wrote false
    ∧ (handle_write fsC1 ["h", "proj"] "../evil.txt" "pwned" "y" "TS").2.files
        ["h", "evil.txt"] = some "pwned" := by
  decide

/-- C1 amended: handle_read rejects exactly the paths whose resolved
rendering fails the string-prefix check against the root (a check that
admits sibling directories sharing the root's name as a string prefix),
while handle_write applies no containment check: any confirmed write
mutates the joined target, wherever it resolves. -/
theorem c1_amended :
    (∀ (scrape : PyPath → String) (fs : FS) (root : PyPath) (rel : String),
      strStartsWith (renderPath (resolveComps (joinPath root (normSlash rel))))
          (renderPath root) = false →
      handle_read scrape fs root rel = .denied)
    ∧ (∀ (fs : FS) (root : PyPath) (rel content resp ts : String),
      confirmYes resp = true →
      (handle_write fs root rel content resp ts).2.files
        (resolveComps (joinPath root (normSlash rel))) = some content) := by
  exact ⟨handle_read_denied, handle_write_writes⟩

/-- Witness for c1_amended at concrete inputs: an absolute path is
rejected by READ, and a confirmed in-root write lands. -/
theorem c1_amended_witness :
    handle_read (fun _ => "") fsC1 ["h", "proj"] "/etc/passwd" = .denied
    ∧ (handle_write fsC1 ["h", "proj"] "notes.txt" "hi" "y" "TS").2.files
        (resolveComps (joinPath ["h", "proj"] (normSlash "notes.txt"))) = some "hi" :=
  ⟨c1_amended.1 (fun _ => "") fsC1 ["h", "proj"] "/etc/passwd" (by decide),
   c1_amended.2 fsC1 ["h", "proj"] "notes.txt" "hi" "y" "TS" (by decide)⟩

/-! ## Claim C8: DELETE has no containment check, READ's check -/

/-- A filesystem with project root /u/app and a sibling /u/appx. -/
def fsC8 : FS :=
  { files := fun q => if q = ["u", "appx", "cfg"] then some "external-data"
             else if q = ["u", "ext.txt"] then some "outside-file" else none,
    dirs := fun q => q = ["u"] || q = ["u", "app"] || q = ["u", "appx"] }

/-- C8 counterexample to the comparative clause: the parent-climbing
argument ../appx/cfg resolves outside the root /u/app, and READ does not
reject it (its string-prefix check passes for the sibling directory), so
the claim that READ rejects such paths fails, even though the DELETE
half of the claim holds (second and third conjuncts: the same handler
deletes a file outside the root after confirmation). -/
theorem c8_counterexample :
    (¬ (["u", "app"] : PyPath).isPrefixOf
        (resolveComps (joinPath ["u", "app"] "../appx/cfg")) = true)
    ∧ handle_read (fun _ => "") fsC8 ["u", "app"] "../appx/cfg"
        = .fileContent "external-data"
    ∧ (handle_delete fsC8 ["u", "app"] "../ext.txt" "y" "TS").1 = .deletedFile
    ∧ (handle_delete fsC8 ["u", "app"] "../ext.txt" "y" "TS").2.files
        ["u", "ext.txt"] = none := by
  decide

/-- C8 amended: handle_delete computes its target by joining the project
root with the argument and applies no containment check, so a confirmed
delete removes the target (file or whole directory tree) even when it
resolves outside the root; READ, by contrast, rejects such paths
whenever the resolved path fails its string-prefix root check. -/
theorem c8_amended :
    (∀ (fs : FS) (root : PyPath) (rel resp ts c : String),
      confirmYes resp = true →
      fs.files (resolveComps (joinPath root (normSlash rel))) = some c →
      fs.dirs (resolveComps (joinPath root (normSlash rel))) = false →
      (handle_delete fs root rel resp ts).1 = .deletedFile
      ∧ (handle_delete fs root rel resp ts).2.files
          (resolveComps (joinPath root (normSlash rel))) = none)
    ∧ (∀ (fs : FS) (root : PyPath) (rel resp ts : String),
      confirmYes resp = true →
      fs.dirs (resolveComps (joinPath root (normSlash rel))) = true →
      (handle_delete fs root rel resp ts).1 = .deletedDir
      ∧ ∀ q, (resolveComps (joinPath root (normSlash rel))).isPrefixOf q = true →
          (handle_delete fs root rel resp ts).2.files q = none)
    ∧ (∀ (scrape : PyPath → String) (fs : FS) (root : PyPath) (rel : String),
      strStartsWith (renderPath (resolveComps (joinPath root (normSlash rel))))
          (renderPath root) = false →
      handle_read scrape fs root rel = .denied) := by
  refine ⟨?_, ?_, fun scrape fs root rel h => handle_read_denied scrape fs root rel h⟩
  · intro fs root rel resp ts c hresp hf hd
    unfold handle_delete
    simp [FS.existsAt, hresp, hf, hd, FS.removeFile]
  · intro fs root rel resp ts hresp hd
    unfold handle_delete
    refine ⟨by simp [FS.existsAt, hresp, hd], ?_⟩
    intro q hq
    have hq2 : resolveComps (joinPath root (normSlash rel)) <+: q := by
      simpa using hq
    simp [FS.existsAt, hresp, hd, FS.rmtree, hq2]

/-- Witness for c8_amended at concrete inputs. -/
theorem c8_amended_witness :
    ((handle_delete fsC8 ["u", "app"] "../appx/cfg" "y" "TS").1 = .deletedFile
      ∧ (handle_delete fsC8 ["u", "app"] "../appx/cfg" "y" "TS").2.files
          (resolveComps (joinPath ["u", "app"] (normSlash "../appx/cfg"))) = none)
    ∧ ((handle_delete fsC8 ["u", "app"] "../appx" "y" "TS").1 = .deletedDir)
    ∧ handle_read (fun _ => "") fsC8 ["u", "app"] "/etc/hosts" = .denied :=
  ⟨c8_amended.1 fsC8 ["u", "app"] "../appx/cfg" "y" "TS" "external-data"
      (by decide) (by decide) (by decide),
   (c8_amended.2.1 fsC8 ["u", "app"] "../appx" "y" "TS" (by decide) (by decide)).1,
   c8_amended.2.2 (fun _ => "") fsC8 ["u", "app"] "/etc/hosts" (by decide)⟩

/-! ## Claim C10: backup filename collision -/

def tsC10 : String := "20240101_120000"

/-- Two distinct relative paths whose live files hold X and Y. -/
def fsC10 : FS :=
  { files := fun q => if q = ["r", "a", "b.txt"] then some "X"
             else if q = ["r", "a_b.txt"] then some "Y" else none,
    dirs := fun q => q = ["r"] || q = ["r", "a"] }

def fsC10a : FS := (handle_write fsC10 ["r"] "a/b.txt" "new1" "y" tsC10).2

def fsC10b : FS := (handle_write fsC10a ["r"] "a_b.txt" "new2" "y" tsC10).2

def bakC10 : PyPath := ["r", ".vibe", "backups", "a_b.txt_20240101_120000.bak"]

/-- C10: the distinct relative paths a/b.txt and a_b.txt map to the same
backup filename within one second, and the second confirmed write's
backup silently overwrites the first one's (the backup that held X holds
Y afterwards). -/
theorem c10_backup_collision :
    ("a/b.txt" : String) ≠ "a_b.txt"
    ∧ bakFileName "a/b.txt" tsC10 = bakFileName "a_b.txt" tsC10
    ∧ resolveComps (backupKey ["r"] (normSlash "a/b.txt") tsC10) = bakC10
    ∧ resolveComps (backupKey ["r"] (normSlash "a_b.txt") tsC10) = bakC10
    ∧ fsC10a.files bakC10 = some "X"
    ∧ fsC10b.files bakC10 = some "Y" := by
  decide

/-! ## Claim C6: the danger classification -/

/-- The danger predicate as the spec sentence describes it, stated from
the spec's words for comparison with is_dangerous: the command's leading
token matches a fixed denylist (format, disk-partitioning,
shutdown/reboot, low-level device writers), or a recursive-delete idiom
is combined with a root-level or wildcard target. -/
def specDangerous (command : String) : Bool :=
  match pySplit (pyLower command) with
  | [] => false
  | t :: args =>
      ["format", "mkfs", "fdisk", "diskpart", "shutdown", "reboot", "dd"].contains t
      || (["rm", "rmdir", "del", "rd"].contains t
          && args.any (fun a => a = "-r" || a = "-rf" || a = "-fr" || a = "/s")
          && args.any (fun a => strStartsWith a "/" || containsSub a "*"))

/-- The classification is_dangerous actually implements, spelled out as a
proposition. -/
def dangerousSpelledOut (w : Bool) (command : String) : Prop :=
  (∃ p0 rest, pySplit (pyLower command) = p0 :: rest ∧ p0 ∈ DANGEROUS_COMMANDS)
  ∨ (pySplit (pyLower command) ≠ []
      ∧ containsSub command "rm" = true
      ∧ (containsSub command "-r" = true ∨ containsSub command "/ " = true))
  ∨ (pySplit (pyLower command) ≠ []
      ∧ w = true
      ∧ (containsSub command "del" = true ∨ containsSub command "rmdir" = true
          ∨ containsSub command "rd" = true)
      ∧ containsSub command "/s" = true
      ∧ (containsSub (pyLower command) "c:\\" = true
          ∨ containsSub (pyLower command) "d:\\" = true))

/-- C6 counterexample: the command confirm -r is classified dangerous by
is_dangerous (the substring rm inside the word confirm plus the substring
-r), although its leading token is in no denylist and it contains no
recursive-delete idiom; and rm -r somedir is classified dangerous
although its target is neither root-level nor a wildcard.  Both refute
the claimed exact characterization, here represented by the spec-worded
predicate specDangerous. -/
theorem c6_counterexample :
    is_dangerous false "confirm -r" = true ∧ specDangerous "confirm -r" = false
    ∧ is_dangerous false "rm -r somedir" = true
    ∧ specDangerous "rm -r somedir" = false := by
  decide

/-- C6 amended: is_dangerous returns true exactly when the lowercased
leading token is one of rm, del, format, mkfs, dd, shutdown, reboot,
diskpart, or the raw command contains the substring rm together with the
substring -r or a slash-space, or (Windows only) contains del, rmdir or
rd together with /s and a c:\ or d:\ drive reference; no root-level or
wildcard target is required, and the substring tests also fire inside
unrelated words. -/
theorem c6_amended (w : Bool) (command : String) :
    is_dangerous w command = true ↔ dangerousSpelledOut w command := by
  unfold is_dangerous dangerousSpelledOut
  cases h : pySplit (pyLower command) with
  | nil => simp [h]
  | cons p0 rest =>
      simp only [h]
      constructor
      · intro hd
        split_ifs at hd with h1 h2 h3
        · exact Or.inl ⟨p0, rest, rfl, by simpa using h1⟩
        · simp only [Bool.and_eq_true, Bool.or_eq_true] at h2
          exact Or.inr (Or.inl ⟨by simp, h2.1, h2.2⟩)
        · simp only [Bool.and_eq_true, Bool.or_eq_true] at h3
          exact Or.inr (Or.inr ⟨by simp, h3.1.1.1, by tauto, h3.1.2, by tauto⟩)
      · intro hspell
        rcases hspell with ⟨q0, qrest, hq, hmem⟩ | ⟨-, ha, hb⟩ | ⟨-, hw, hdel, hs, hc⟩
        · injection hq with hq1 hq2
          subst hq1
          simp
          tauto
        · simp
          tauto
        · simp
          tauto

/-- Witness for c6_amended at a concrete input: the canonical dangerous
command satisfies the spelled-out classification, hence the gate flags
it. -/
theorem c6_amended_witness : is_dangerous false "rm -rf /" = true :=
  (c6_amended false "rm -rf /").mpr (Or.inl ⟨"rm", ["-rf", "/"], by decide, by decide⟩)

/-! ## Claim C5: CD and the triggered context refresh -/

/-- An injective stand-in for the scrape of file_reader.py: distinct
directories scrape to distinct strings. -/
def scrapeC5 : PyPath → String := fun p => "SCRAPE " ++ renderPath p

def treeC5 : PyPath → String := fun p => "TREE " ++ renderPath p

def fsC5 : FS :=
  { files := fun q => if q = ["r", "sub", "f.txt"] then some "F" else none,
    dirs := fun q => q = ["r"] || q = ["r", "sub"] }

def msgsC5 : List Msg :=
  [⟨"system", "SYS PROMPT"⟩, ⟨"system", "HERE IS THE CURRENT REPO CONTEXT: old"⟩]

/-- C5 counterexample: a successful CD into the existing subdirectory sub
updates the tracked working directory, but the refreshed context entry
is built from the original root (its content is the scrape of /r), which
differs from the entry a scrape of the new current directory /r/sub
would give - contradicting the claim that the refreshed entry reflects
the new current directory rather than the original root. -/
theorem c5_counterexample :
    (handle_cd scrapeC5 treeC5 false fsC5 ["r"] ["r"] "sub" "10:00:00" msgsC5).1 = .ok
    ∧ (handle_cd scrapeC5 treeC5 false fsC5 ["r"] ["r"] "sub" "10:00:00" msgsC5).2.1
        = ["r", "sub"]
    ∧ (handle_cd scrapeC5 treeC5 false fsC5 ["r"] ["r"] "sub" "10:00:00" msgsC5).2.2
        = [⟨"system", "SYS PROMPT"⟩,
           ⟨"system", mkCtxEntry "10:00:00" (mkCombinedContext (treeC5 ["r"]) (scrapeC5 ["r"]))⟩]
    ∧ mkCtxEntry "10:00:00" (mkCombinedContext (treeC5 ["r"]) (scrapeC5 ["r"]))
        ≠ mkCtxEntry "10:00:00" (mkCombinedContext (treeC5 ["r", "sub"]) (scrapeC5 ["r", "sub"])) := by
  decide

/-- C5 amended: a successful CD into an existing directory updates the
working directory and triggers a refresh, but that refresh rebuilds the
context entry from the unchanged project ROOT (refresh_context receives
root, not the new cwd); a CD whose resolved target does not exist, or is
not a directory, returns the corresponding error and leaves both the
working directory and the message history unchanged. -/
theorem c5_amended (scrape tree : PyPath → String) (fs : FS) (root cwd : PyPath)
    (target ts : String) (msgs : List Msg) :
    (fs.existsAt (resolveComps (joinPath cwd target)) = true →
     fs.dirs (resolveComps (joinPath cwd target)) = true →
     handle_cd scrape tree false fs root cwd target ts msgs
       = (.ok, resolveComps (joinPath cwd target), refresh_context scrape tree root ts msgs))
    ∧ (fs.existsAt (resolveComps (joinPath cwd target)) = false →
       handle_cd scrape tree false fs root cwd target ts msgs = (.notFound, cwd, msgs))
    ∧ (fs.existsAt (resolveComps (joinPath cwd target)) = true →
       fs.dirs (resolveComps (joinPath cwd target)) = false →
       handle_cd scrape tree false fs root cwd target ts msgs = (.notDir, cwd, msgs)) := by
  refine ⟨?_, ?_, ?_⟩
  · intro h1 h2
    unfold handle_cd
    simp [h1, h2]
  · intro h1
    unfold handle_cd
    simp [h1]
  · intro h1 h2
    unfold handle_cd
    simp [h1, h2]

/-- Witness for c5_amended at concrete inputs: the successful CD and the
missing-directory failure. -/
theorem c5_amended_witness :
    handle_cd scrapeC5 treeC5 false fsC5 ["r"] ["r"] "sub" "10:00:00" msgsC5
      = (.ok, resolveComps (joinPath ["r"] "sub"),
         refresh_context scrapeC5 treeC5 ["r"] "10:00:00" msgsC5)
    ∧ handle_cd scrapeC5 treeC5 false fsC5 ["r"] ["r"] "nope" "10:00:00" msgsC5
      = (.notFound, ["r"], msgsC5) :=
  ⟨(c5_amended scrapeC5 treeC5 fsC5 ["r"] ["r"] "sub" "10:00:00" msgsC5).1
      (by decide) (by decide),
   (c5_amended scrapeC5 treeC5 fsC5 ["r"] ["r"] "nope" "10:00:00" msgsC5).2.1 (by decide)⟩

/-! ## Claims C2 and C9: the RUN pipeline -/

/-- If no entry of the response stream strips to the elevated phrase,
neither does the next input read (a missing input is the empty string). -/
theorem pyStrip_headD_ne_confirm (l : List String) (h : ∀ x ∈ l, pyStrip x ≠ "confirm") :
    pyStrip (l.head?.getD "") ≠ "confirm" := by
  cases l with
  | nil => decide
  | cons a t => exact h a (List.mem_cons_self a t)

theorem forall_tail_of_forall {l : List String} (h : ∀ x ∈ l, pyStrip x ≠ "confirm") :
    ∀ x ∈ l.tail, pyStrip x ≠ "confirm" :=
  fun x hx => h x (List.mem_of_mem_tail hx)

/-- The second input read is likewise not the elevated phrase. -/
theorem pyStrip_second_ne_confirm (l : List String) (h : ∀ x ∈ l, pyStrip x ≠ "confirm") :
    pyStrip (l[1]?.getD "") ≠ "confirm" := by
  rcases l with - | ⟨a, tl⟩
  · decide
  · rcases tl with - | ⟨b, t⟩
    · simp only [List.getElem?_cons_succ, List.getElem?_nil, Option.getD_none]
      decide
    · simp only [List.getElem?_cons_succ, List.getElem?_cons_zero, Option.getD_some]
      exact h b (by simp)

set_option maxHeartbeats 1000000 in
/-- The third input read is likewise not the elevated phrase. -/
theorem pyStrip_third_ne_confirm (l : List String) (h : ∀ x ∈ l, pyStrip x ≠ "confirm") :
    pyStrip (l[2]?.getD "") ≠ "confirm" := by
  rcases l with - | ⟨a, - | ⟨b, - | ⟨c, t⟩⟩⟩
  · decide
  · simp only [List.getElem?_cons_succ, List.getElem?_nil, Option.getD_none]
    decide
  · simp only [List.getElem?_cons_succ, List.getElem?_nil, Option.getD_none]
    decide
  · simp only [List.getElem?_cons_succ, List.getElem?_cons_zero, Option.getD_some]
    exact h c (by simp)

/-- Off Windows, the RUN handler never takes the new-window launch
branch. -/
theorem handle_run_unix_no_launch (fs : FS) (cwd : PyPath) (command : String)
    (stdin : List String) (f : String) :
    handle_run false fs cwd command stdin ≠ .winLaunched f := by
  unfold handle_run runGate runConfirmExec popInput
  simp only [Bool.false_eq_true, if_false]
  split_ifs <;> simp

/-- The safety gate spawns nothing when the operator never supplies the
elevated phrase. -/
theorem runGate_no_spawn (w : Bool) (c : String) (isServer : Bool) (stdin : List String)
    (hd : is_dangerous w c = true)
    (h : ∀ x ∈ stdin, pyStrip x ≠ "confirm") :
    spawnedOf (runGate w c isServer stdin) = none := by
  have hne := pyStrip_headD_ne_confirm stdin h
  unfold runGate popInput
  simp [hd, hne, spawnedOf]

def fsRun : FS := { files := fun _ => none, dirs := fun q => q = ["r"] }

/-- C2 counterexample: on Windows, a command classified dangerous by the
Safety Gate that also matches a server pattern is spawned through the
launch-in-new-window branch on an empty operator input, with no elevated
confirmation prompt ever offered. -/
theorem c2_counterexample :
    is_dangerous true (runCommandAfterFixes true "format c: && npm run dev") = true
    ∧ pyStrip "" ≠ "confirm"
    ∧ spawnedOf (handle_run true fsRun ["r"] "format c: && npm run dev" [""])
        = some (mkStartCmd ["r"] "format c: && npm run dev", none) := by
  decide

set_option maxHeartbeats 1000000 in
/-- C2 amended: on any platform, whenever the launch-in-new-window
branch is not taken (off Windows it does not exist; on Windows, for a
server command, the operator's first input declines the offer), a
command classified dangerous by the gate is never spawned unless some
operator input strips to exactly the phrase confirm - empty, y and yes
all block - and for non-server commands the elevated prompt consumes
the first operator input, strictly before the ordinary yes/no execution
confirmation. -/
theorem c2_amended (w : Bool) (fs : FS) (cwd : PyPath) (command : String)
    (hd : is_dangerous w (runCommandAfterFixes w command) = true)
    (hcd : strStartsWith (pyStrip command) "cd " = false) :
    (∀ stdin : List String, (∀ x ∈ stdin, pyStrip x ≠ "confirm") →
        (w = true →
          serverPatterns.any
            (fun p => containsSub (pyLower (runCommandAfterFixes w command)) p) = true →
          ["", "y", "yes"].contains (pyStrip (pyLower (stdin.head?.getD ""))) = false) →
        spawnedOf (handle_run w fs cwd command stdin) = none)
    ∧ (serverPatterns.any
         (fun p => containsSub (pyLower (runCommandAfterFixes w command)) p) = false →
       ∀ d e rest,
         handle_run w fs cwd command (d :: e :: rest)
           = if pyStrip d = "confirm"
             then (if confirmYes e then .executed (runCommandAfterFixes w command)
                   else .denied)
             else .blockedDangerous) := by
  constructor
  · intro stdin h hnl
    have hne := pyStrip_headD_ne_confirm stdin h
    have hne2 := pyStrip_second_ne_confirm stdin h
    have hne3 := pyStrip_third_ne_confirm stdin h
    have hnetail := pyStrip_headD_ne_confirm stdin.tail (forall_tail_of_forall h)
    have hnetail2 := pyStrip_second_ne_confirm stdin.tail (forall_tail_of_forall h)
    have hnett := pyStrip_headD_ne_confirm stdin.tail.tail
      (forall_tail_of_forall (forall_tail_of_forall h))
    unfold handle_run runGate runConfirmExec popInput
    by_cases hs : serverPatterns.any
        (fun p => containsSub (pyLower (runCommandAfterFixes w command)) p) = true
    · cases w with
      | false =>
          by_cases hc1 : confirmYes (stdin.head?.getD "") = true
          · simp [hcd, hs, hc1, hd, hne, hne2, spawnedOf]
          · simp [hcd, hs, hc1, hd, spawnedOf]
      | true =>
          have hl := hnl rfl hs
          have hl0 : pyStrip (pyLower (stdin.head?.getD "")) ≠ "" := by
            intro hcon
            rw [hcon] at hl
            exact absurd hl (by decide)
          have hl1 : pyStrip (pyLower (stdin.head?.getD "")) ≠ "y" := by
            intro hcon
            rw [hcon] at hl
            exact absurd hl (by decide)
          have hl2 : pyStrip (pyLower (stdin.head?.getD "")) ≠ "yes" := by
            intro hcon
            rw [hcon] at hl
            exact absurd hl (by decide)
          by_cases hc1 : confirmYes (stdin[1]?.getD "") = true
          · simp [hcd, hs, hl0, hl1, hl2, hc1, hd, hne, hne2, hne3, hnetail,
              hnetail2, hnett, spawnedOf]
          · simp [hcd, hs, hl0, hl1, hl2, hc1, hd, spawnedOf]
    · simp [hcd, hs, hd, hne, spawnedOf]
  · intro hns d e rest
    unfold handle_run runGate runConfirmExec popInput
    by_cases hc : pyStrip d = "confirm"
    · by_cases he : confirmYes e = true
      · simp [hcd, hns, hd, hc, he]
      · simp [hcd, hns, hd, hc, he]
    · simp [hcd, hns, hd, hc]

/-- Witness for c2_amended at concrete dangerous commands: y then y
blocks with nothing spawned off Windows; on Windows a dangerous server
command with the new-window offer declined is likewise blocked; the
exact phrase followed by y executes. -/
theorem c2_amended_witness :
    spawnedOf (handle_run false fsRun ["r"] "rm -rf /" ["y", "y"]) = none
    ∧ spawnedOf (handle_run true fsRun ["r"] "format c: && npm run dev" ["n", "y", "y"]) = none
    ∧ handle_run false fsRun ["r"] "rm -rf /" ["confirm", "y"]
        = .executed (runCommandAfterFixes false "rm -rf /") := by
  have h1 := c2_amended false fsRun ["r"] "rm -rf /" (by decide) (by decide)
  have h2 := c2_amended true fsRun ["r"] "format c: && npm run dev" (by decide) (by decide)
  refine ⟨h1.1 ["y", "y"] (by decide) (by decide),
    h2.1 ["n", "y", "y"] (by decide) (by decide), ?_⟩
  have h3 := h1.2 (by decide) "confirm" "y" []
  rw [if_pos (show pyStrip "confirm" = "confirm" by decide)] at h3
  rw [if_pos (show confirmYes "y" = true by decide)] at h3
  exact h3

/-- C9 counterexample: the Windows launch-in-new-window server branch
spawns its start command with no piped standard input, so not every
spawned command receives the fixed y newline. -/
theorem c9_counterexample :
    spawnedOf (handle_run true fsRun ["r"] "npm run dev" ["y"])
      = some (mkStartCmd ["r"] "npm run dev", none)
    ∧ (none : Option String) ≠ some "y\n" := by
  decide

/-- C9 amended: every command the RUN handler spawns through its standard
execution path is given the fixed string y newline on standard input;
the only exception is the Windows launch-in-new-window server branch,
which spawns with no piped input. -/
theorem c9_amended (w : Bool) (fs : FS) (cwd : PyPath) (command : String)
    (stdin : List String) (c : String) (si : Option String)
    (h : spawnedOf (handle_run w fs cwd command stdin) = some (c, si)) :
    si = some "y\n" ∨ (w = true ∧ si = none) := by
  cases hr : handle_run w fs cwd command stdin with
  | cdOk p => rw [hr] at h; exact absurd h (by simp [spawnedOf])
  | cdErr => rw [hr] at h; exact absurd h (by simp [spawnedOf])
  | serverSkipped c2 => rw [hr] at h; exact absurd h (by simp [spawnedOf])
  | blockedDangerous => rw [hr] at h; exact absurd h (by simp [spawnedOf])
  | denied => rw [hr] at h; exact absurd h (by simp [spawnedOf])
  | winLaunched f =>
      rw [hr] at h
      simp only [spawnedOf, Option.some.injEq, Prod.mk.injEq] at h
      refine Or.inr ⟨?_, h.2.symm⟩
      cases w with
      | true => rfl
      | false => exact absurd hr (handle_run_unix_no_launch fs cwd command stdin f)
  | executed c0 =>
      rw [hr] at h
      simp only [spawnedOf, Option.some.injEq, Prod.mk.injEq] at h
      exact Or.inl h.2.symm

/-- Witness for c9_amended: a harmless executed command received the
piped y newline. -/
theorem c9_amended_witness :
    (some "y\n" : Option String) = some "y\n"
    ∨ (false = true ∧ (some "y\n" : Option String) = none) :=
  c9_amended false fsRun ["r"] "ls" ["y"] "ls" (some "y\n") (by decide)

/-! ## Claim C4: backup before overwrite, creation without backup -/

theorem splitSlashL_length_le (l : List Char) : ∀ p ∈ splitSlashL l, p.length ≤ l.length := by
  induction l with
  | nil =>
      intro p hp
      simp [splitSlashL] at hp
      simp [hp]
  | cons c t ih =>
      intro p hp
      unfold splitSlashL at hp
      by_cases hc : c = '/'
      · rw [if_pos hc] at hp
        rcases List.mem_cons.mp hp with hp | hp
        · simp [hp]
        · exact Nat.le_succ_of_le (ih p hp)
      · rw [if_neg hc] at hp
        rcases hsp : splitSlashL t with - | ⟨h0, r⟩
        · rw [hsp] at hp
          simp at hp
          subst hp
          simp
        · rw [hsp] at hp
          simp at hp
          rcases hp with hp | hp
          · subst hp
            have hm : h0 ∈ splitSlashL t := by
              rw [hsp]; exact List.mem_cons_self _ _
            simpa using Nat.succ_le_succ (ih h0 hm)
          · have hm : p ∈ splitSlashL t := by
              rw [hsp]; exact List.mem_cons_of_mem _ hp
            exact Nat.le_succ_of_le (ih p hm)

/-- Every component pathlib keeps from a path string is no longer than
the string. -/
theorem pathParts_length_le (s : String) : ∀ x ∈ pathParts s, x.length ≤ s.length := by
  intro x hx
  unfold pathParts at hx
  have hx2 := List.mem_of_mem_filter hx
  rcases List.mem_map.mp hx2 with ⟨p, hp, hpe⟩
  have := splitSlashL_length_le s.toList p hp
  subst hpe
  exact this

/-- Resolution distributes over an appended tail free of dot-dot
components. -/
theorem resolveComps_append (a l : PyPath) (h : ∀ x ∈ l, x ≠ "..") :
    resolveComps (a ++ l) = resolveComps a ++ l := by
  induction l generalizing a with
  | nil => simp
  | cons x t ih =>
      have hx : x ≠ ".." := h x (List.mem_cons_self x t)
      have hrest : ∀ y ∈ t, y ≠ ".." := fun y hy => h y (List.mem_cons_of_mem x hy)
      have h1 : a ++ x :: t = (a ++ [x]) ++ t := by simp
      rw [h1, ih (a ++ [x]) hrest]
      have h2 : resolveComps (a ++ [x]) = resolveComps a ++ [x] := by
        unfold resolveComps
        rw [List.foldl_append]
        simp [hx]
      rw [h2]
      simp

/-- A joined path without dot-dot parts under a resolved root is already
resolved. -/
theorem resolveComps_joinPath (root : PyPath) (rel : String)
    (hroot : resolveComps root = root)
    (hdd : ".." ∉ pathParts rel) :
    resolveComps (joinPath root rel) = joinPath root rel := by
  unfold joinPath
  have hall : ∀ x ∈ pathParts rel, x ≠ ".." := by
    intro x hx hxe
    exact hdd (hxe ▸ hx)
  by_cases hs : strStartsWith rel "/" = true
  · simp only [hs, if_true]
    simpa using resolveComps_append [] (pathParts rel) hall
  · simp only [hs, Bool.false_eq_true, if_false]
    rw [resolveComps_append root _ hall, hroot]

theorem safeName_length (rel : String) : (safeName rel).length = rel.length := by
  show (rel.toList.map (fun c => if c = '/' || c = '\\' then '_' else c)).length = rel.length
  rw [List.length_map]
  rfl

theorem bakFileName_length (rel ts : String) :
    (bakFileName rel ts).length = rel.length + ts.length + 5 := by
  unfold bakFileName
  rw [String.length_append, String.length_append, String.length_append, safeName_length]
  have h1 : ("_" : String).length = 1 := rfl
  have h2 : (".bak" : String).length = 4 := rfl
  omega

/-- The resolved backup path of a write or delete never coincides with
its resolved target: the backup file's name is strictly longer than the
relative path, while every component of the target is no longer than
it. -/
theorem backup_ne_target (root : PyPath) (rel ts : String)
    (hroot : resolveComps root = root)
    (hdd : ".." ∉ pathParts rel) :
    resolveComps (backupKey root rel ts) ≠ resolveComps (joinPath root rel) := by
  have hbak : resolveComps (backupKey root rel ts)
      = root ++ [".vibe", "backups", bakFileName rel ts] := by
    unfold backupKey
    rw [resolveComps_append root _ ?hcomps, hroot]
    case hcomps =>
      intro x hx
      simp only [List.mem_cons, List.not_mem_nil, or_false] at hx
      rcases hx with h | h | h
      · subst h; decide
      · subst h; decide
      · subst h
        intro hcon
        have hlen := bakFileName_length rel ts
        rw [hcon] at hlen
        have h2 : (".." : String).length = 2 := rfl
        omega
  rw [resolveComps_joinPath root rel hroot hdd, hbak]
  unfold joinPath
  by_cases hs : strStartsWith rel "/" = true
  · rw [if_pos hs]
    intro heq
    have hmem : bakFileName rel ts ∈ pathParts rel := by
      rw [← heq]; simp
    have hle := pathParts_length_le rel _ hmem
    have hlen := bakFileName_length rel ts
    omega
  · rw [if_neg (by simpa using hs)]
    intro heq
    have htl : [".vibe", "backups", bakFileName rel ts] = pathParts rel :=
      List.append_cancel_left heq
    have hmem : bakFileName rel ts ∈ pathParts rel := by
      rw [← htl]; simp
    have hle := pathParts_length_le rel _ hmem
    have hlen := bakFileName_length rel ts
    omega

/-- C4: under a resolved root and a relative path free of dot-dot
segments, a confirmed WRITE to an existing file copies its old content
C1 into the timestamped backup inside the sidecar directory and then
overwrites the live file with C2; a confirmed WRITE to an absent target
creates it with C2 and touches no other file - in particular no backup
is made. -/
theorem c4_write_backup (fs : FS) (root : PyPath) (rel c1 c2 resp ts : String)
    (hresp : confirmYes resp = true)
    (hroot : resolveComps root = root)
    (hdd : ".." ∉ pathParts (normSlash rel)) :
    ((fs.files (joinPath root (normSlash rel)) = some c1 →
      (handle_write fs root rel c2 resp ts).2.files
          (resolveComps (backupKey root (normSlash rel) ts)) = some c1
      ∧ (handle_write fs root rel c2 resp ts).2.files
          (joinPath root (normSlash rel)) = some c2))
    ∧ (fs.existsAt (joinPath root (normSlash rel)) = false →
       (handle_write fs root rel c2 resp ts).2.files
           (joinPath root (normSlash rel)) = some c2
       ∧ ∀ q, q ≠ joinPath root (normSlash rel) →
           (handle_write fs root rel c2 resp ts).2.files q = fs.files q) := by
  have hres := resolveComps_joinPath root (normSlash rel) hroot hdd
  have hne := backup_ne_target root (normSlash rel) ts hroot hdd
  rw [hres] at hne
  constructor
  · intro hold
    have hex : fs.existsAt (resolveComps (joinPath root (normSlash rel))) = true := by
      rw [hres]
      simp [FS.existsAt, hold]
    unfold handle_write
    rw [hres] at hex
    simp only [hresp, Bool.not_true, Bool.false_eq_true, if_false, hres, hex, if_true]
    constructor
    · simp [FS.writeFile, FS.mkdirParents, FS.copyFile, hne, hold]
    · simp [FS.writeFile]
  · intro hex
    unfold handle_write
    simp only [hresp, Bool.not_true, Bool.false_eq_true, if_false, hres, hex]
    constructor
    · simp [FS.writeFile]
    · intro q hq
      simp [FS.writeFile, FS.mkdirParents, hq]

/-- Witness for c4_write_backup at concrete inputs: overwriting an
existing file backs up X first, and writing a fresh file creates it with
no other change. -/
theorem c4_write_backup_witness :
    ((fsC10.files (joinPath ["r"] (normSlash "a/b.txt")) = some "X" →
      (handle_write fsC10 ["r"] "a/b.txt" "new1" "y" tsC10).2.files
          (resolveComps (backupKey ["r"] (normSlash "a/b.txt") tsC10)) = some "X"
      ∧ (handle_write fsC10 ["r"] "a/b.txt" "new1" "y" tsC10).2.files
          (joinPath ["r"] (normSlash "a/b.txt")) = some "new1"))
    ∧ (fsC10.existsAt (joinPath ["r"] (normSlash "fresh.txt")) = false →
       (handle_write fsC10 ["r"] "fresh.txt" "hello" "y" tsC10).2.files
           (joinPath ["r"] (normSlash "fresh.txt")) = some "hello"
       ∧ ∀ q, q ≠ joinPath ["r"] (normSlash "fresh.txt") →
           (handle_write fsC10 ["r"] "fresh.txt" "hello" "y" tsC10).2.files q
             = fsC10.files q) :=
  ⟨(c4_write_backup fsC10 ["r"] "a/b.txt" "X" "new1" "y" tsC10
      (by decide) (by decide) (by decide)).1,
   (c4_write_backup fsC10 ["r"] "fresh.txt" "X" "hello" "y" tsC10
      (by decide) (by decide) (by decide)).2⟩

/-! ## Claim C3: WRITE blocks, literal bodies, and the strip before
writing -/

/-- The loop of process_tool_calls over the WRITE matches: each match's
path and body are stripped and handed to handle_write, threading the
filesystem (the same confirmation response and timestamp serve every
prompt). -/
def runWriteActions (fs : FS) (root : PyPath) (t resp ts : String) : FS :=
  (findWrite t).foldl
    (fun acc q => (handle_write acc root (pyStrip q.1) (pyStrip q.2) resp ts).2) fs

/-- A well-formed WRITE block around a path line and a literal body. -/
def mkWriteBlock (p b : String) : String := ">>> WRITE " ++ p ++ "\n" ++ b ++ "<<<"

/-- The body starts with a non-whitespace character (or is empty), so the
greedy whitespace before the newline consumes nothing of it. -/
def headOk (b : List Char) : Bool := b.head?.all (fun c => !isPyWs c)

/-- No position of the body starts an occurrence of the closing marker
once the marker is appended: the lazy body group then captures the whole
body. -/
def bodyOk : List Char → Bool
  | [] => true
  | c :: t => !(markerL.isPrefixOf (c :: t ++ markerL)) && bodyOk t

theorem toList_append (a b : String) : (a ++ b).toList = a.toList ++ b.toList := by
  cases a
  cases b
  rfl

theorem mk_toList (s : String) : String.mk s.toList = s := rfl

theorem dropWhile_head_false (f : Char → Bool) (l : List Char)
    (h : ∀ c ∈ l.head?, f c = false) : l.dropWhile f = l := by
  cases l with
  | nil => rfl
  | cons x t =>
      have hx : f x = false := h x rfl
      simp [List.dropWhile, hx]

/-- Stripping a string of non-whitespace characters changes nothing. -/
theorem pyStrip_no_ws (p : String) (h : ∀ c ∈ p.toList, isPyWs c = false) : pyStrip p = p := by
  unfold pyStrip pyStripL
  rw [dropWhile_head_false isPyWs p.toList
      (fun c hc => h c (List.mem_of_mem_head? hc))]
  rw [dropWhile_head_false isPyWs p.toList.reverse
      (fun c hc => h c (List.mem_reverse.mp (List.mem_of_mem_head? hc)))]
  rw [List.reverse_reverse]
  exact mk_toList p

/-- The lazy body group captures exactly a marker-clean body. -/
theorem matchBody_cons (c : Char) (t : List Char) :
    matchBody (c :: t)
      = if markerL.isPrefixOf (c :: t) then some ([], (c :: t).drop 3)
        else (matchBody t).map (fun p => (c :: p.1, p.2)) := rfl

theorem matchBody_append (b : List Char) (h : bodyOk b = true) :
    matchBody (b ++ markerL) = some (b, []) := by
  induction b with
  | nil => rfl
  | cons c t ih =>
      unfold bodyOk at h
      simp only [Bool.and_eq_true] at h
      have h2 := h.1
      rw [List.cons_append] at h2
      have h1 : markerL.isPrefixOf (c :: (t ++ markerL)) = false := by
        cases hcb : markerL.isPrefixOf (c :: (t ++ markerL))
        · rfl
        · rw [hcb] at h2
          exact absurd h2 (by decide)
      show matchBody (c :: (t ++ markerL)) = some (c :: t, [])
      rw [matchBody_cons]
      simp only [h1, Bool.false_eq_true, if_false]
      rw [ih h.2]
      rfl

/-- A body with a non-whitespace head cannot begin with the whitespace
and newline the argument-line tail demands. -/
theorem matchWsNlBody_append_none (b : List Char) (h : headOk b = true) :
    matchWsNlBody (b ++ markerL) = none := by
  cases b with
  | nil => rfl
  | cons c t =>
      have hc : isPyWs c = false := by simpa [headOk] using h
      show matchWsNlBody (c :: (t ++ markerL)) = none
      unfold matchWsNlBody
      simp [hc]

/-- At the newline ending the argument line, the greedy whitespace run
retreats to the newline itself and the body group takes over. -/
theorem matchWsNlBody_nl (b : List Char) (hhead : headOk b = true) (hbody : bodyOk b = true) :
    matchWsNlBody ('\n' :: (b ++ markerL)) = some (b, []) := by
  unfold matchWsNlBody
  rw [matchWsNlBody_append_none b hhead]
  have hnl : isPyWs '\n' = true := rfl
  simp [hnl, matchBody_append b hbody]

/-- The lazy argument group grows through the whole whitespace-free path
and stops at the newline. -/
theorem matchArgBody_full (x : Char) (t b : List Char)
    (hx : isPyWs x = false) (ht : ∀ c ∈ t, isPyWs c = false)
    (hhead : headOk b = true) (hbody : bodyOk b = true) :
    matchArgBody ((x :: t) ++ '\n' :: (b ++ markerL)) = some (x :: t, b, []) := by
  induction t generalizing x with
  | nil =>
      show matchArgBody (x :: ('\n' :: (b ++ markerL))) = some ([x], b, [])
      unfold matchArgBody
      rw [matchWsNlBody_nl b hhead hbody]
  | cons y t2 ih =>
      have hy : isPyWs y = false := ht y (List.mem_cons_self _ _)
      have ht2 : ∀ c ∈ t2, isPyWs c = false := fun c hc => ht c (List.mem_cons_of_mem _ hc)
      show matchArgBody (x :: ((y :: t2) ++ '\n' :: (b ++ markerL))) = some (x :: y :: t2, b, [])
      unfold matchArgBody
      have hnone : matchWsNlBody ((y :: t2) ++ '\n' :: (b ++ markerL)) = none := by
        show matchWsNlBody (y :: (t2 ++ '\n' :: (b ++ markerL))) = none
        unfold matchWsNlBody
        simp [hy]
      rw [hnone, ih y hy ht2]
      rfl

theorem matchStarArgBody_nonws (x : Char) (r : List Char) (hx : isPyWs x = false) :
    matchStarArgBody (x :: r) = matchArgBody (x :: r) := by
  unfold matchStarArgBody
  simp [hx]

/-- One full WRITE attempt after the opening marker of a well-formed
block. -/
theorem matchWriteAt_full (x : Char) (t b : List Char)
    (hx : isPyWs x = false) (ht : ∀ c ∈ t, isPyWs c = false)
    (hhead : headOk b = true) (hbody : bodyOk b = true) :
    matchWriteAt
        (' ' :: 'W' :: 'R' :: 'I' :: 'T' :: 'E' :: ' ' :: ((x :: t) ++ '\n' :: (b ++ markerL)))
      = some (x :: t, b, []) := by
  show matchStarArgBody (x :: (t ++ '\n' :: (b ++ markerL))) = some (x :: t, b, [])
  rw [matchStarArgBody_nonws x _ hx]
  exact matchArgBody_full x t b hx ht hhead hbody

theorem findWriteAux_nil (n : Nat) : findWriteAux n [] = [] := by
  cases n <;> rfl

/-- One scanning step of findall at an opening marker. -/
theorem findWriteAux_cons_succ (fuel : Nat) (c : Char) (t : List Char) :
    findWriteAux (fuel + 1) (c :: t)
      = if openerL.isPrefixOf (c :: t) then
          match matchWriteAt ((c :: t).drop 3) with
          | some (g, b, r) => (g, b) :: findWriteAux fuel r
          | none => findWriteAux fuel t
        else findWriteAux fuel t := rfl

theorem mkWriteBlock_toList (p b : String) :
    (mkWriteBlock p b).toList
      = '>' :: '>' :: '>' :: ' ' :: 'W' :: 'R' :: 'I' :: 'T' :: 'E' :: ' '
        :: (p.toList ++ '\n' :: (b.toList ++ markerL)) := by
  unfold mkWriteBlock
  rw [toList_append, toList_append, toList_append, toList_append]
  simp [markerL]

/-- The parser extracts exactly one command from a well-formed WRITE
block, with the path line and the literal body (blank lines included)
as its captures. -/
theorem findWrite_mkWriteBlock (p b : String)
    (hp : p.toList ≠ []) (hpw : ∀ c ∈ p.toList, isPyWs c = false)
    (hhead : headOk b.toList = true) (hbody : bodyOk b.toList = true) :
    findWrite (mkWriteBlock p b) = [(p, b)] := by
  obtain ⟨x, t, hxt⟩ : ∃ x t, p.toList = x :: t := by
    cases hpl : p.toList with
    | nil => exact absurd hpl hp
    | cons x t => exact ⟨x, t, rfl⟩
  have hx : isPyWs x = false := hpw x (by rw [hxt]; exact List.mem_cons_self _ _)
  have ht : ∀ c ∈ t, isPyWs c = false :=
    fun c hc => hpw c (by rw [hxt]; exact List.mem_cons_of_mem _ hc)
  unfold findWrite
  rw [mkWriteBlock_toList, hxt, findWriteAux_cons_succ]
  rw [show openerL.isPrefixOf ('>' :: '>' :: '>' :: ' ' :: 'W' :: 'R' :: 'I' :: 'T' :: 'E' :: ' '
      :: ((x :: t) ++ '\n' :: (b.toList ++ markerL))) = true from rfl]
  rw [if_pos rfl]
  rw [show ('>' :: '>' :: '>' :: ' ' :: 'W' :: 'R' :: 'I' :: 'T' :: 'E' :: ' '
      :: ((x :: t) ++ '\n' :: (b.toList ++ markerL))).drop 3
      = ' ' :: 'W' :: 'R' :: 'I' :: 'T' :: 'E' :: ' ' :: ((x :: t) ++ '\n' :: (b.toList ++ markerL))
      from rfl]
  rw [matchWriteAt_full x t b.toList hx ht hhead hbody]
  simp [findWriteAux_nil, ← hxt, mk_toList]

def fsC3 : FS := { files := fun _ => none, dirs := fun q => q = ["r"] }

/-- C3 counterexample: for the single WRITE block with literal body
"hello \n" (trailing space and newline), the parser does capture the
literal body, but process_tool_calls strips it before handing it to the
WRITE handler, so the file receives "hello", not the body exactly as
supplied. -/
theorem c3_counterexample :
    findWrite ">>> WRITE a.txt\nhello \n<<<" = [("a.txt", "hello \n")]
    ∧ (runWriteActions fsC3 ["r"] ">>> WRITE a.txt\nhello \n<<<" "y" "TS").files
        ["r", "a.txt"] = some "hello"
    ∧ ("hello" : String) ≠ "hello \n" := by
  decide

/-- C3 amended: for a well-formed text holding exactly one WRITE block
(whitespace-free nonempty path; body not opening with whitespace and
marker-clean), the parser produces exactly one command whose body is the
literal text between the argument line and the closing marker, embedded
blank lines included - but process_tool_calls strips leading and
trailing whitespace from that body (and from the path) before calling
the WRITE handler, which writes the stripped body verbatim.  So the file
content equals the stripped literal body, not the body itself. -/
theorem c3_amended (p b : String) (fs : FS) (root : PyPath) (resp ts : String)
    (hp : p.toList ≠ []) (hpw : ∀ c ∈ p.toList, isPyWs c = false)
    (hhead : headOk b.toList = true) (hbody : bodyOk b.toList = true)
    (hresp : confirmYes resp = true) :
    findWrite (mkWriteBlock p b) = [(p, b)]
    ∧ (runWriteActions fs root (mkWriteBlock p b) resp ts).files
        (resolveComps (joinPath root (normSlash p))) = some (pyStrip b) := by
  have hfw := findWrite_mkWriteBlock p b hp hpw hhead hbody
  refine ⟨hfw, ?_⟩
  unfold runWriteActions
  rw [hfw]
  simp only [List.foldl]
  rw [pyStrip_no_ws p hpw]
  exact handle_write_writes fs root p (pyStrip b) resp ts hresp

/-- Witness for c3_amended at a concrete block whose body embeds a blank
line. -/
theorem c3_amended_witness :
    findWrite (mkWriteBlock "x.txt" "line1\n\nline2\n")
      = [("x.txt", "line1\n\nline2\n")]
    ∧ (runWriteActions fsC3 ["r"] (mkWriteBlock "x.txt" "line1\n\nline2\n") "y" "TS").files
        (resolveComps (joinPath ["r"] (normSlash "x.txt")))
      = some (pyStrip "line1\n\nline2\n") :=
  c3_amended "x.txt" "line1\n\nline2\n" fsC3 ["r"] "y" "TS"
    (by decide) (by decide) (by decide) (by decide) (by decide)

/-! ## Claim C7: context-gathering verbs run before destructive verbs -/

/-- The context-gathering verbs named by the claim. -/
def isGatherA : Action → Bool
  | .read _ => true
  | .tree => true
  | .listfiles => true
  | _ => false

/-- The mutating verbs named by the claim. -/
def isMutateA : Action → Bool
  | .write _ _ => true
  | .delete _ => true
  | .run _ => true
  | .install _ _ => true
  | .create _ _ _ => true
  | .refreshCtx => true
  | _ => false

theorem get_append_left_mem {α : Type} (L1 L2 : List α) (i : Nat)
    (hi : i < (L1 ++ L2).length) (h : i < L1.length) : (L1 ++ L2).get ⟨i, hi⟩ ∈ L1 := by
  induction L1 generalizing i with
  | nil => exact absurd h (by simp)
  | cons a t ih =>
      cases i with
      | zero => exact List.mem_cons_self _ _
      | succ i2 =>
          have hi2 : i2 < (t ++ L2).length := by
            simpa [Nat.succ_lt_succ_iff] using hi
          have h2 : i2 < t.length := Nat.lt_of_succ_lt_succ h
          exact List.mem_cons_of_mem a (ih i2 hi2 h2)

theorem get_append_right_mem {α : Type} (L1 L2 : List α) (i : Nat)
    (hi : i < (L1 ++ L2).length) (h : L1.length ≤ i) : (L1 ++ L2).get ⟨i, hi⟩ ∈ L2 := by
  induction L1 generalizing i with
  | nil => exact List.get_mem _ _ _
  | cons a t ih =>
      cases i with
      | zero => exact absurd h (by simp)
      | succ i2 =>
          have hi2 : i2 < (t ++ L2).length := by
            simpa [Nat.succ_lt_succ_iff] using hi
          exact ih i2 hi2 (Nat.le_of_succ_le_succ h)

/-- In a concatenation whose first part holds no mutating action and
whose second part holds no gathering action, every gathering index
precedes every mutating index. -/
theorem gather_before_mutate (L1 L2 : List Action)
    (h1 : ∀ a ∈ L1, isMutateA a = false)
    (h2 : ∀ a ∈ L2, isGatherA a = false) :
    ∀ i j (hi : i < (L1 ++ L2).length) (hj : j < (L1 ++ L2).length),
      isGatherA ((L1 ++ L2).get ⟨i, hi⟩) = true →
      isMutateA ((L1 ++ L2).get ⟨j, hj⟩) = true → i < j := by
  intro i j hi hj hg hm
  have hiL : i < L1.length := by
    by_contra hcon
    push_neg at hcon
    have hmem := get_append_right_mem L1 L2 i hi hcon
    rw [h2 _ hmem] at hg
    exact absurd hg (by decide)
  have hjL : L1.length ≤ j := by
    by_contra hcon
    push_neg at hcon
    have hmem := get_append_left_mem L1 L2 j hj hcon
    rw [h1 _ hmem] at hm
    exact absurd hm (by decide)
  omega

/-- C7: within one response, every READ, TREE and LISTFILES block is
executed (and its feedback entry placed) before any WRITE, DELETE, RUN,
INSTALL, CREATE or REFRESH block, whatever the textual order - the
source's loops run in that fixed priority. -/
theorem c7_gather_before_destructive (t : String) :
    ∀ i j (hi : i < (processToolCalls t).length) (hj : j < (processToolCalls t).length),
      isGatherA ((processToolCalls t).get ⟨i, hi⟩) = true →
      isMutateA ((processToolCalls t).get ⟨j, hj⟩) = true → i < j := by
  have hsplit : processToolCalls t
      = (((findSingle "READ" t).map (fun p => Action.read (pyStrip p)))
          ++ (List.replicate (findZero "TREE" t) Action.tree)
          ++ (List.replicate (findZero "LISTFILES" t) Action.listfiles))
        ++ (((findWrite t).map (fun q => Action.write (pyStrip q.1) (pyStrip q.2)))
            ++ ((findSingle "CD" t).map (fun p => Action.cd (pyStrip p)))
            ++ ((findSingle "DELETE" t).map (fun p => Action.delete (pyStrip p)))
            ++ ((findSingle "RUN" t).map (fun c => Action.run (pyStrip c)))
            ++ ((findInstall t).map (fun q => Action.install (pyStrip q.1) (pyStrip q.2)))
            ++ ((findCreate t).map
                  (fun q => Action.create (pyStrip q.1) (pyStrip q.2.1) (pyStrip (q.2.2.getD ""))))
            ++ ((findSingle "SHADCN" t).map (fun c => Action.shadcn (pyStrip c)))
            ++ (List.replicate (findZero "REFRESH" t) Action.refreshCtx)) := by
    unfold processToolCalls
    simp [List.append_assoc]
  have h1 : ∀ a ∈ (((findSingle "READ" t).map (fun p => Action.read (pyStrip p)))
      ++ (List.replicate (findZero "TREE" t) Action.tree)
      ++ (List.replicate (findZero "LISTFILES" t) Action.listfiles)),
      isMutateA a = false := by
    intro a ha
    simp only [List.mem_append, List.mem_map, List.mem_replicate] at ha
    rcases ha with (⟨x, -, rfl⟩ | ⟨-, rfl⟩) | ⟨-, rfl⟩ <;> rfl
  have h2 : ∀ a ∈ (((findWrite t).map (fun q => Action.write (pyStrip q.1) (pyStrip q.2)))
      ++ ((findSingle "CD" t).map (fun p => Action.cd (pyStrip p)))
      ++ ((findSingle "DELETE" t).map (fun p => Action.delete (pyStrip p)))
      ++ ((findSingle "RUN" t).map (fun c => Action.run (pyStrip c)))
      ++ ((findInstall t).map (fun q => Action.install (pyStrip q.1) (pyStrip q.2)))
      ++ ((findCreate t).map
            (fun q => Action.create (pyStrip q.1) (pyStrip q.2.1) (pyStrip (q.2.2.getD ""))))
      ++ ((findSingle "SHADCN" t).map (fun c => Action.shadcn (pyStrip c)))
      ++ (List.replicate (findZero "REFRESH" t) Action.refreshCtx)),
      isGatherA a = false := by
    intro a ha
    simp only [List.mem_append, List.mem_map, List.mem_replicate] at ha
    rcases ha with ((((((⟨x, -, rfl⟩ | ⟨x, -, rfl⟩) | ⟨x, -, rfl⟩) | ⟨x, -, rfl⟩)
      | ⟨x, -, rfl⟩) | ⟨x, -, rfl⟩) | ⟨x, -, rfl⟩) | ⟨-, rfl⟩ <;> rfl
  have hmain := gather_before_mutate _ _ h1 h2
  rw [← hsplit] at hmain
  exact hmain

/-- Witness for c7_gather_before_destructive: in a response listing a
WRITE block before a READ block, the read still runs first. -/
theorem c7_witness : (0 : Nat) < 1 :=
  c7_gather_before_destructive ">>> WRITE a.txt\nbody\n<<< >>> READ b.txt <<<"
    0 1 (by decide) (by decide) (by decide) (by decide)

end VibeCLI
